import Mathlib

/-!
Shallow embedding of `scripts/scrape-cse120.py` (CSE 120 course page scraper
with optional external enrichment) and proofs about its claims.

Strings are modelled as Lean `String`s; Python string operations
(`lower`, `strip`, substring containment) and the handful of concrete
regular expressions used by the script are translated into executable
functions over `List Char`.  Network calls are modelled by an explicit
outcome value (`CallResult`): an HTTP status code or a raised exception.
-/

namespace Scrape

/-- ASCII whitespace as recognised by Python `str.strip` and the regex
class backslash-s (space, tab, newline, carriage return, vertical tab,
form feed); the course page data is ASCII. -/
def isSpace (c : Char) : Bool :=
  c = ' ' || c = '\t' || c = '\n' || c = '\r' || c = '\x0b' || c = '\x0c'

/-- Python `str.strip` on a character list. -/
def stripChars (l : List Char) : List Char :=
  ((l.dropWhile isSpace).reverse.dropWhile isSpace).reverse

/-- Python `str.strip`. -/
def strip (s : String) : String :=
  String.mk (stripChars s.toList)

/-- Python `str.lower` (ASCII), producing the character list we match on. -/
def lc (s : String) : List Char :=
  s.toList.map Char.toLower

/-- Test that the list given second starts with the list given first. -/
def startsWithL : List Char → List Char → Bool
  | [], _ => true
  | _ :: _, [] => false
  | a :: as, b :: bs => a = b && startsWithL as bs

/-- Python substring containment `needle in hay` on character lists. -/
def containsL (needle : List Char) : List Char → Bool
  | [] => needle.isEmpty
  | h :: t => startsWithL needle (h :: t) || containsL needle t

/-- Python substring containment on strings (case sensitive). -/
def containsStr (needle hay : String) : Bool :=
  containsL needle.toList hay.toList

/-- After optional whitespace, the next character is a digit: the way the
anchored regexes `ch\.?\s*\d+`, `hw\s*\d+`, `pr\s*\d+` continue after
their literal part (the characters eaten by backslash-s-star are
whitespace, never digits, so backtracking adds no further matches). -/
def tailDigit (l : List Char) : Bool :=
  match l.dropWhile isSpace with
  | c :: _ => c.isDigit
  | [] => false

/-- Python re.match of the pattern ch\.?\s*\d+ (anchored at the start). -/
def matchChNum : List Char → Bool
  | 'c' :: 'h' :: rest =>
    tailDigit rest ||
      (match rest with
       | '.' :: r => tailDigit r
       | _ => false)
  | _ => false

/-- Python re.match of the pattern hw\s*\d+ (anchored at the start). -/
def matchHwNum : List Char → Bool
  | 'h' :: 'w' :: rest => tailDigit rest
  | _ => false

/-- Python re.match of the pattern pr\s*\d+ (anchored at the start). -/
def matchPrNum : List Char → Bool
  | 'p' :: 'r' :: rest => tailDigit rest
  | _ => false

/-- A hyperlink found in the schedule row: the dict
`{"url": url, "title": text}` built by `_categorize_link`. -/
structure Resource where
  url : String
  title : String
deriving DecidableEq, Repr

/-- The four categorization buckets (`week_data["resources"]`). -/
structure Buckets where
  textbook : List Resource
  slides : List Resource
  homework : List Resource
  papers : List Resource
deriving DecidableEq, Repr

def emptyBuckets : Buckets := ⟨[], [], [], []⟩

/-- The four categories of `_categorize_link`. -/
inductive Category
  | textbook
  | slides
  | homework
  | papers
deriving DecidableEq, Repr

/-- The textbook rule of `_categorize_link` (first rule, text only). -/
def textbookCond (tl : List Char) : Bool :=
  matchChNum tl || containsL "chapter".toList tl ||
    containsL "textbook".toList tl || containsL "reading".toList tl

/-- The homework rule of `_categorize_link` (second rule, text only). -/
def homeworkCond (tl : List Char) : Bool :=
  containsL "homework".toList tl || containsL "assignment".toList tl ||
    containsL "project".toList tl || matchHwNum tl || matchPrNum tl

/-- The slides rule of `_categorize_link` (third rule). -/
def slidesCond (tl ul : List Char) : Bool :=
  containsL "slide".toList tl || containsL ".ppt".toList ul ||
    (containsL "lecture".toList ul && containsL ".pdf".toList ul) ||
    containsL "/sema.pdf".toList ul

/-- The papers rule of `_categorize_link` (fourth rule). -/
def papersCond (tl ul : List Char) : Bool :=
  containsL "paper".toList tl || containsL "arxiv".toList ul ||
    containsL "acm".toList ul || containsL "ieee".toList ul ||
    containsL "language".toList tl || containsL "optional".toList tl ||
    containsL "cv".toList tl

/-- The category `_categorize_link` decides for a `(url, text)` pair:
the if/elif chain of the source with the first match winning, then the
`.pdf`-to-slides fallback, then papers. -/
def categorize (url text : String) : Category :=
  let tl := lc text
  let ul := lc url
  if textbookCond tl then Category.textbook
  else if homeworkCond tl then Category.homework
  else if slidesCond tl ul then Category.slides
  else if papersCond tl ul then Category.papers
  else if containsL ".pdf".toList ul then Category.slides
  else Category.papers

/-- Model of _categorize_link(url, text, resources): appends the resource
`{"url": url, "title": text}` to the bucket picked by the if/elif chain. -/
def categorize_link (url text : String) (b : Buckets) : Buckets :=
  let tl := lc text
  let ul := lc url
  if textbookCond tl then { b with textbook := b.textbook ++ [⟨url, text⟩] }
  else if homeworkCond tl then { b with homework := b.homework ++ [⟨url, text⟩] }
  else if slidesCond tl ul then { b with slides := b.slides ++ [⟨url, text⟩] }
  else if papersCond tl ul then { b with papers := b.papers ++ [⟨url, text⟩] }
  else if containsL ".pdf".toList ul then { b with slides := b.slides ++ [⟨url, text⟩] }
  else { b with papers := b.papers ++ [⟨url, text⟩] }

/-- Append a resource to the named bucket, leaving the others unchanged. -/
def bucketAppend (b : Buckets) (c : Category) (r : Resource) : Buckets :=
  match c with
  | Category.textbook => { b with textbook := b.textbook ++ [r] }
  | Category.slides => { b with slides := b.slides ++ [r] }
  | Category.homework => { b with homework := b.homework ++ [r] }
  | Category.papers => { b with papers := b.papers ++ [r] }

theorem categorize_link_eq (url text : String) (b : Buckets) :
    categorize_link url text b = bucketAppend b (categorize url text) ⟨url, text⟩ := by
  unfold categorize_link categorize bucketAppend
  by_cases h1 : textbookCond (lc text) <;>
    by_cases h2 : homeworkCond (lc text) <;>
      by_cases h3 : slidesCond (lc text) (lc url) <;>
        by_cases h4 : papersCond (lc text) (lc url) <;>
          by_cases h5 : containsL ['.', 'p', 'd', 'f'] (lc url) <;>
            simp [h1, h2, h3, h4, h5]

/-- After the slash of `\d{1,2}/\d{1,2}`: a '/' followed by at least one
digit. -/
def slashDigits : List Char → Bool
  | '/' :: c :: _ => c.isDigit
  | _ => false

/-- Python re.match of the date pattern: one or two digits, a slash, then
one or two digits, anchored at the start (the rest of `s` is ignored;
with three leading digits no backtracking of the greedy quantifier can
reach the slash, matching CPython). -/
def matchDate : List Char → Bool
  | a :: rest =>
    a.isDigit &&
      (slashDigits rest ||
        (match rest with
         | b :: rest2 => b.isDigit && slashDigits rest2
         | [] => false))
  | [] => false

/-- The literal `monitor` (the trailing optional `s` of `monitors?` never
affects whether a search succeeds). -/
def monitorTail (l : List Char) : Bool :=
  startsWithL "monitor".toList l

/-- The part of `semaphores?\s+(and\s+)?monitors?` after the (optional)
plural `s`: at least one whitespace, then either `monitor` directly or
`and`, whitespace, `monitor`.  The greedy whitespace runs need no
backtracking because neither `a` nor `m` is whitespace. -/
def semTail (l : List Char) : Bool :=
  (match l with
   | c :: _ => isSpace c
   | [] => false) &&
    (let l' := l.dropWhile isSpace
     monitorTail l' ||
       (startsWithL "and".toList l' &&
         (match l'.drop 3 with
          | c :: _ => isSpace c
          | [] => false) &&
         monitorTail ((l'.drop 3).dropWhile isSpace)))

/-- Python re.search of the case-insensitive topic pattern
`semaphores?\s+(and\s+)?monitors?` over an already lower-cased list. -/
def semaSearch : List Char → Bool
  | [] => false
  | l@(_ :: rest) =>
    (startsWithL "semaphore".toList l &&
      (semTail (l.drop 9) ||
        (match l.drop 9 with
         | 's' :: r => semTail r
         | _ => false))) ||
      semaSearch rest

/-- HTML cell tag: header or data cell. -/
inductive Tag
  | th
  | td
deriving DecidableEq, Repr

/-- A table cell with its tag and text content (`get_text()`). -/
structure Cell where
  tag : Tag
  text : String
deriving DecidableEq, Repr

/-- An anchor element with an `href` attribute, as returned by
`find_all('a', href=True)`. -/
structure Anchor where
  href : String
  text : String
deriving DecidableEq, Repr

/-- A table row: its `td`/`th` cells in order, and the anchors with
`href` contained anywhere in the row, in document order. -/
structure Row where
  cells : List Cell
  anchors : List Anchor
deriving DecidableEq, Repr

/-- A table: its tr rows in document order. -/
structure Table where
  rows : List Row
deriving DecidableEq, Repr

/-- All th cells of a table, in document order. -/
def tableThs (t : Table) : List Cell :=
  t.rows.flatMap (fun r => r.cells.filter (fun c => c.tag = Tag.th))

/-- Join of the stripped header-cell texts with single spaces. -/
def headerText (t : Table) : String :=
  String.intercalate " " ((tableThs t).map (fun c => strip c.text))

/-- The header rule of the locator: the concatenated header text contains
"Date", "Lecture" or "Readings" (case sensitive). -/
def headerRule (t : Table) : Bool :=
  containsStr "Date" (headerText t) || containsStr "Lecture" (headerText t) ||
    containsStr "Readings" (headerText t)

/-- The date-pattern fallback rule: the first cell of the first row
matches `\d{1,2}/\d{1,2}` after stripping. -/
def dateRule (t : Table) : Bool :=
  match t.rows with
  | [] => false
  | r :: _ =>
    match r.cells with
    | [] => false
    | c :: _ => matchDate (strip c.text).toList

/-- The schedule-table search loop of `scrape_week`: scan the tables in
document order and take the first for which the header rule or the
date rule fires (both rules are tried on each table before moving on). -/
def schedule_table (tables : List Table) : Option Table :=
  tables.find? (fun t => headerRule t || dateRule t)

/-- Join of the stripped cell texts of a row with single spaces. -/
def rowText (r : Row) : String :=
  String.intercalate " " (r.cells.map (fun c => strip c.text))

/-- A row qualifies as the topic row: at least two cells (rows with
fewer are skipped with `continue` before any matching) and the
case-insensitive topic pattern found in the joined cell text. -/
def row_qualifies (r : Row) : Bool :=
  decide (2 ≤ r.cells.length) && semaSearch (lc (rowText r))

/-- The row loop of `scrape_week`: first qualifying row, if any. -/
def topic_row (rows : List Row) : Option Row :=
  rows.find? row_qualifies

def cellDefault : Cell := ⟨Tag.td, ""⟩

/-- The lecture cell: the second cell when more than one exists, else
the first (the default value of
`getD` is never consulted on the reachable path, where the caller has
already ensured at least two cells). -/
def lecture_cell (cells : List Cell) : Cell :=
  if 1 < cells.length then cells.getD 1 cellDefault else cells.getD 0 cellDefault

def course_url : String := "https://cseweb.ucsd.edu/classes/fa25/cse120-a/"

/-- URL resolution: the url itself when it starts with http, else the
join of the course url and the relative url; the
library resolver `urljoin` is an external collaborator and is passed in
as `join`. -/
def resolveUrl (join : String → String → String) (base u : String) : String :=
  if startsWithL "http".toList u.toList then u else join base u

/-- The link-collection loop over `row.find_all('a', href=True)`:
each anchor yields `(resolved url, stripped text)`, in document order. -/
def extract_links (join : String → String → String) (base : String) (r : Row) :
    List (String × String) :=
  r.anchors.map (fun a => (resolveUrl join base a.href, strip a.text))

/-- Value of a maximal leading digit run, as `int()` of the captured
group (leading zeros collapse, as in Python). -/
def digitsVal (l : List Char) : Nat :=
  (l.takeWhile Char.isDigit).foldl (fun n c => n * 10 + (c.toNat - 48)) 0

/-- Continuation `\s*(\d+)` of the chapter regexes: optional whitespace,
then at least one digit; returns the captured value. -/
def spacesThenDigits (l : List Char) : Option Nat :=
  match l.dropWhile isSpace with
  | c :: r => if c.isDigit then some (digitsVal (c :: r)) else none
  | [] => none

/-- Python re.search of the pattern chapter\s*(\d+) over a lower-cased
list: leftmost
occurrence wins; a literal match without following digits is skipped and
the scan resumes one character later, as in CPython. -/
def searchChapterNum : List Char → Option Nat
  | [] => none
  | l@(_ :: rest) =>
    if startsWithL "chapter".toList l then
      match spacesThenDigits (l.drop 7) with
      | some n => some n
      | none => searchChapterNum rest
    else searchChapterNum rest

/-- Python re.search of the pattern ch\.?\s*(\d+) over a lower-cased
list. -/
def searchChNum : List Char → Option Nat
  | [] => none
  | c :: rest =>
    if c = 'c' then
      match rest with
      | 'h' :: r =>
        (match spacesThenDigits r with
         | some n => some n
         | none =>
           match r with
           | '.' :: r2 =>
             (match spacesThenDigits r2 with
              | some n => some n
              | none => searchChNum rest)
           | _ => searchChNum rest)
      | _ => searchChNum rest
    else searchChNum rest

/-- Model of _extract_chapter_number(title). -/
def extract_chapter_number (title : String) : Nat :=
  match searchChapterNum (lc title) with
  | some n => n
  | none =>
    match searchChNum (lc title) with
    | some n => n
    | none => 1

theorem lengthDropWhileLe {α : Type} (p : α → Bool) (l : List α) :
    (l.dropWhile p).length ≤ l.length := by
  induction l with
  | nil => simp [List.dropWhile]
  | cons c t ih =>
    by_cases h : p c <;> simp [List.dropWhile, h]
    omega

/-- Python re.findall of the pattern (\d+\.\d+): non-overlapping
leftmost matches of
a digit run, a dot, a digit run; each match is returned verbatim and the
scan resumes after it. -/
def findDecimals : List Char → List String
  | [] => []
  | c :: rest =>
    if c.isDigit then
      let d1 := (c :: rest).takeWhile Char.isDigit
      match h : rest.dropWhile Char.isDigit with
      | '.' :: r2 =>
        (match r2 with
         | d :: _ =>
           if d.isDigit then
             String.mk (d1 ++ '.' :: r2.takeWhile Char.isDigit) ::
               findDecimals (r2.dropWhile Char.isDigit)
           else findDecimals rest
         | [] => findDecimals rest)
      | _ => findDecimals rest
    else findDecimals rest
termination_by l => l.length
decreasing_by
  all_goals simp only [List.length_cons]
  · rename_i hdropeq tl hd
    have h1 : ('.' :: r2).length ≤ t.length := by
      rw [← hdropeq]; exact lengthDropWhileLe _ t
    have h2 := lengthDropWhileLe Char.isDigit r2
    simp only [List.length_cons] at h1
    omega
  all_goals omega

/-- Python re.search of the pattern (\d+)-(\d+): leftmost position at
which a maximal
digit run is followed by a dash and a digit run; returns the two captured
values (greedy digit runs need no backtracking, since a digit never
matches the dash). -/
def searchRange : List Char → Option (Nat × Nat)
  | [] => none
  | c :: rest =>
    if c.isDigit then
      match (c :: rest).dropWhile Char.isDigit with
      | '-' :: r2 =>
        (match r2 with
         | d :: _ => if d.isDigit then some (digitsVal (c :: rest), digitsVal r2)
                     else searchRange rest
         | [] => searchRange rest)
      | _ => searchRange rest
    else searchRange rest

/-- Model of _extract_problem_numbers(title). -/
def extract_problem_numbers (title : String) : List String :=
  let problems := findDecimals title.toList
  if problems.isEmpty then
    match searchRange title.toList with
    | some (s, e) => (List.range' s (e + 1 - s)).map (fun i => toString i)
    | none => ["1", "2", "3"]
  else problems

/-- The author lookup loop of `_extract_authors`: a surname whose hit
takes neither branch (Galvin, Gagne, Bos) lets the loop continue. -/
def extract_authors_loop : List String → String → List String
  | [], _ => ["Unknown Author"]
  | a :: rest, title =>
    if containsL (lc a) (lc title) then
      if a = "Silberschatz" then
        ["Abraham Silberschatz", "Peter Baer Galvin", "Greg Gagne"]
      else if a = "Tanenbaum" then
        ["Andrew S. Tanenbaum", "Herbert Bos"]
      else extract_authors_loop rest title
    else extract_authors_loop rest title

/-- Model of _extract_authors(title). -/
def extract_authors (title : String) : List String :=
  extract_authors_loop ["Silberschatz", "Galvin", "Gagne", "Tanenbaum", "Bos"] title

/-- The three resource types passed to `_enrich_resource` by its call
sites in `enrich_with_parallel` ("textbook", "slides", "homework"). -/
inductive RType
  | textbook
  | slides
  | homework
deriving DecidableEq, Repr

/-- Outcome of one external HTTP call: a response with its status code,
or a raised exception (covering timeouts and transport errors). -/
inductive CallResult
  | status (code : Nat)
  | exn
deriving DecidableEq, Repr

/-- A failed call as seen by the script: an exception or a non-200
response. -/
def isFailure : CallResult → Bool
  | CallResult.status code => code != 200
  | CallResult.exn => true

/-- The type-specific enriched record built by `_enrich_resource` /
`_basic_structure`. -/
inductive Enriched
  | textbookRec (title url : String) (authors : List String)
      (pages : List Nat) (chapter : Nat) (confidence : ℚ)
  | slidesRec (title url : String) (pages : Nat) (professor : String)
      (confidence : ℚ)
  | homeworkRec (assignment url : String) (problems : List String)
      (confidence : ℚ)
deriving DecidableEq, Repr

/-- The `confidence` field of an enriched record. -/
def confidenceOf : Enriched → ℚ
  | Enriched.textbookRec _ _ _ _ _ c => c
  | Enriched.slidesRec _ _ _ _ c => c
  | Enriched.homeworkRec _ _ _ c => c

/-- Model of _basic_structure(resource, resource_type): the locally built
heuristic record with confidence 0.70. -/
def basic_structure (r : Resource) (t : RType) : Enriched :=
  match t with
  | RType.textbook =>
    Enriched.textbookRec r.title r.url (extract_authors r.title) [1, 50]
      (extract_chapter_number r.title) 0.70
  | RType.slides =>
    Enriched.slidesRec r.title r.url 40 "CSE 120 Staff" 0.70
  | RType.homework =>
    Enriched.homeworkRec r.title r.url (extract_problem_numbers r.title) 0.70

/-- Model of _enrich_resource(resource, resource_type, topic): one external
search call; on HTTP 200 a record with confidence 0.85/0.90/0.85, on any
exception or non-200 response the heuristic record of
`_basic_structure` (the `topic` only feeds the request body and never
the produced record). -/
def enrich_resource (r : Resource) (t : RType) (_topic : String)
    (oc : CallResult) : Enriched :=
  match oc with
  | CallResult.status code =>
    if code = 200 then
      match t with
      | RType.textbook =>
        Enriched.textbookRec r.title r.url (extract_authors r.title) [1, 50]
          (extract_chapter_number r.title) 0.85
      | RType.slides =>
        Enriched.slidesRec r.title r.url 40 "CSE 120 Staff" 0.90
      | RType.homework =>
        Enriched.homeworkRec r.title r.url (extract_problem_numbers r.title) 0.85
    else basic_structure r t
  | CallResult.exn => basic_structure r t

/-- The per-bucket enrichment loop of `enrich_with_parallel`: one call
per resource, in list order; `oc i` is the outcome of the i-th call.
Every produced record is a non-empty dict in the source, so the
`if enriched:` guard never drops one. -/
def enrich_loop (topic : String) :
    List (Resource × RType) → (Nat → CallResult) → List Enriched
  | [], _ => []
  | (r, t) :: rest, oc =>
    enrich_resource r t topic (oc 0) :: enrich_loop topic rest (fun i => oc (i + 1))

/-- A research-paper record as produced by `_get_fallback_papers`. -/
structure Paper where
  title : String
  authors : List String
  url : String
  year : Nat
  venue : String
  confidence : ℚ
deriving DecidableEq, Repr

/-- Model of _get_fallback_papers(): the static three-paper list. -/
def get_fallback_papers : List Paper :=
  [{ title := "The Linux Completely Fair Scheduler",
     authors := ["Ingo Molnar"],
     url := "https://www.kernel.org/doc/Documentation/scheduler/sched-design-CFS.txt",
     year := 2023,
     venue := "Linux Kernel Documentation",
     confidence := 0.88 },
   { title := "Lottery Scheduling: Flexible Proportional-Share Resource Management",
     authors := ["Carl A. Waldspurger", "William E. Weihl"],
     url := "https://www.usenix.org/legacy/publications/library/proceedings/osdi/full_papers/waldspurger.pdf",
     year := 1994,
     venue := "OSDI",
     confidence := 0.85 },
   { title := "BFS vs CFS - Scheduler Comparison",
     authors := ["Con Kolivas"],
     url := "https://ck-hack.blogspot.com/2013/10/bfs-vs-cfs-scheduler-comparison.html",
     year := 2023,
     venue := "Blog Post",
     confidence := 0.75 }]

/-- Model of _parse_parallel_papers(result): the source ignores the response
body and returns the fallback list unconditionally. -/
def parse_parallel_papers (_result : String) : List Paper :=
  get_fallback_papers

/-- Model of _find_research_papers(topic): no key, an exception, or a non-200
response all yield the fallback list; a 200 response is parsed (into the
fallback list) and an empty parse also falls back. -/
def find_research_papers (key : Option String) (oc : CallResult)
    (body : String) : List Paper :=
  match key with
  | none => get_fallback_papers
  | some _ =>
    match oc with
    | CallResult.status code =>
      if code = 200 then
        let papers := parse_parallel_papers body
        if papers.isEmpty then get_fallback_papers else papers
      else get_fallback_papers
    | CallResult.exn => get_fallback_papers

/-- The week_data dict: week number, topic, and the four buckets. -/
structure WeekData where
  week : Nat
  topic : String
  resources : Buckets
deriving DecidableEq, Repr

/-- Model of _get_fallback_data(week_number). -/
def get_fallback_data (week : Nat) : WeekData :=
  { week := week,
    topic := if week = 3 then "Process Scheduling"
             else "Week " ++ toString week ++ " Topic",
    resources :=
      { textbook :=
          [⟨"https://example.com/silberschatz-ch5.pdf", "Silberschatz Chapter 5"⟩,
           ⟨"https://example.com/tanenbaum-ch2.pdf", "Tanenbaum Chapter 2"⟩],
        slides := [⟨"https://example.com/week3-slides.pdf", "Week 3 Lecture Slides"⟩],
        homework := [⟨"https://example.com/ps3.pdf", "Problem Set 3"⟩],
        papers := [] } }

/-- Model of scrape_week(week_number): the fetch argument is the parsed
document (its
tables in order) or `none` on a request exception; every failure path
substitutes the fallback data.  On success the topic is the stripped
text of the lecture cell of the first qualifying row and the row's
resolved links are folded through `_categorize_link` in order. -/
def scrape_week (week : Nat) (join : String → String → String)
    (fetch : Option (List Table)) : WeekData :=
  match fetch with
  | none => get_fallback_data week
  | some tables =>
    match schedule_table tables with
    | none => get_fallback_data week
    | some table =>
      match topic_row table.rows with
      | none => get_fallback_data week
      | some row =>
        { week := week,
          topic := strip (lecture_cell row.cells).text,
          resources :=
            (extract_links join course_url row).foldl
              (fun b ut => categorize_link ut.1 ut.2 b) emptyBuckets }

/-- The `aggregatedContent` object of the output document. -/
structure AggregatedContent where
  textbooks : List Enriched
  slides : List Enriched
  homework : List Enriched
  papers : List Paper
  parallelRunId : String
  aggregatedAt : String
deriving DecidableEq, Repr

/-- The output document (`output` in the source). -/
structure WeekBundle where
  courseCode : String
  institution : String
  weekNumber : Nat
  weekTopic : String
  aggregatedContent : AggregatedContent
deriving DecidableEq, Repr

/-- Model of _structure_for_output(week_data): heuristic-only records for the
three enriched buckets and the fallback papers; `now`/`nowStr` stand for
`time.time()` and the formatted `time.gmtime()`. -/
def structure_for_output (wd : WeekData) (now : Nat) (nowStr : String) :
    WeekBundle :=
  { courseCode := "CSE 120",
    institution := "UCSD",
    weekNumber := wd.week,
    weekTopic := wd.topic,
    aggregatedContent :=
      { textbooks := wd.resources.textbook.map (fun r => basic_structure r RType.textbook),
        slides := wd.resources.slides.map (fun r => basic_structure r RType.slides),
        homework := wd.resources.homework.map (fun r => basic_structure r RType.homework),
        papers := get_fallback_papers,
        parallelRunId := "scrape-no-parallel-" ++ toString now,
        aggregatedAt := nowStr } }

/-- Model of enrich_with_parallel(week_data): without a key, defer to
_structure_for_output; with one, enrich the textbook, slides and
homework buckets in that order (the call oracle `oc` is consumed
sequentially across the three loops), find papers, and assemble. -/
def enrich_with_parallel (wd : WeekData) (key : Option String)
    (oc : Nat → CallResult) (paperOc : CallResult) (paperBody : String)
    (now : Nat) (nowStr : String) : WeekBundle :=
  match key with
  | none => structure_for_output wd now nowStr
  | some k =>
    let n1 := wd.resources.textbook.length
    let n2 := wd.resources.slides.length
    { courseCode := "CSE 120",
      institution := "UCSD",
      weekNumber := wd.week,
      weekTopic := wd.topic,
      aggregatedContent :=
        { textbooks :=
            enrich_loop wd.topic (wd.resources.textbook.map (fun r => (r, RType.textbook))) oc,
          slides :=
            enrich_loop wd.topic (wd.resources.slides.map (fun r => (r, RType.slides)))
              (fun i => oc (n1 + i)),
          homework :=
            enrich_loop wd.topic (wd.resources.homework.map (fun r => (r, RType.homework)))
              (fun i => oc (n1 + n2 + i)),
          papers := find_research_papers (some k) paperOc paperBody,
          parallelRunId := "scrape-" ++ toString now,
          aggregatedAt := nowStr } }

/-- Model of main() after argument parsing: scrape, then either the
no-enrich branch (_structure_for_output) or
enrich_with_parallel; the resulting document is what gets serialized. -/
def program_run (week : Nat) (join : String → String → String)
    (fetch : Option (List Table)) (key : Option String) (noEnrich : Bool)
    (oc : Nat → CallResult) (paperOc : CallResult) (paperBody : String)
    (now : Nat) (nowStr : String) : WeekBundle :=
  let wd := scrape_week week join fetch
  if noEnrich then structure_for_output wd now nowStr
  else enrich_with_parallel wd key oc paperOc paperBody now nowStr

theorem bucketAppendInj (b : Buckets) (r : Resource) (c c' : Category)
    (h : bucketAppend b c r = bucketAppend b c' r) : c = c' := by
  cases c <;> cases c' <;> simp_all [bucketAppend]

/-- Claim C2: the link categorizer is total, deterministic, and mutually
exclusive: for every `(url, text)` pair exactly one of the four buckets
receives the resource (the update equals `bucketAppend` at exactly one
category), and repeating the call on the same input yields the same
category. -/
theorem c2_categorizer_total_exclusive (url text : String) (b : Buckets) :
    (∃! c : Category, categorize_link url text b = bucketAppend b c ⟨url, text⟩) ∧
      categorize url text = categorize url text := by
  refine ⟨⟨categorize url text, categorize_link_eq url text b, ?_⟩, rfl⟩
  intro c hc
  exact bucketAppendInj b ⟨url, text⟩ c (categorize url text)
    (hc.symm.trans (categorize_link_eq url text b))

/-- Claim C3, counterexample: the link with text "Homework Ch. 3" is
categorized as homework, not textbook, at a concrete url (the textbook
rule never fires: its regex is anchored at the start of the text). -/
theorem c3_homework_ch3_counterexample :
    categorize "https://example.com/x" "Homework Ch. 3" = Category.homework ∧
      categorize "https://example.com/x" "Homework Ch. 3" ≠ Category.textbook := by
  decide

/-- Claim C3, amended: a link with text "Homework Ch. 3" is categorized
as homework for every url, because the textbook regex `ch\.?\s*\d+` is
anchored at the start of the text (Python `re.match`), "Homework Ch. 3"
does not start with "ch", no other textbook condition holds, and the
homework rule ("homework" substring) fires. -/
theorem c3_homework_ch3_amended (url : String) :
    categorize url "Homework Ch. 3" = Category.homework := by
  unfold categorize
  have h1 : textbookCond (lc "Homework Ch. 3") = false := by decide
  have h2 : homeworkCond (lc "Homework Ch. 3") = true := by decide
  simp [h1, h2]

/-- Claim C8: a link with empty text and url
"https://arxiv.org/abs/1234.pdf" is categorized as papers: the arxiv
rule fires (and would beat the generic ".pdf"-to-slides fallback, whose
condition also holds on this url). -/
theorem c8_arxiv_pdf_papers :
    categorize "https://arxiv.org/abs/1234.pdf" "" = Category.papers ∧
      papersCond (lc "") (lc "https://arxiv.org/abs/1234.pdf") = true ∧
      containsL ".pdf".toList (lc "https://arxiv.org/abs/1234.pdf") = true := by
  decide

/-- Claim C1: enrichment never fails the batch.  For every list of
resources of the three enriched types and every pattern of external-call
outcomes, the loop yields exactly one output record per input, in input
order (so no exception escapes the adapter), and every failed call
(exception or non-200 response) yields the locally built heuristic
record with confidence 0.70 for that resource. -/
theorem c1_enrich_never_fails_batch (topic : String)
    (rs : List (Resource × RType)) (oc : Nat → CallResult) :
    (enrich_loop topic rs oc).length = rs.length ∧
      ∀ i r t, rs[i]? = some (r, t) →
        (enrich_loop topic rs oc)[i]? = some (enrich_resource r t topic (oc i)) ∧
          (isFailure (oc i) = true →
            enrich_resource r t topic (oc i) = basic_structure r t ∧
              confidenceOf (basic_structure r t) = (0.70 : ℚ)) := by
  constructor
  · induction rs generalizing oc with
    | nil => rfl
    | cons p rest ih =>
      obtain ⟨r, t⟩ := p
      simp [enrich_loop, ih]
  · intro i r t hget
    refine ⟨?_, ?_⟩
    · induction rs generalizing oc i with
      | nil => simp at hget
      | cons p rest ih =>
        obtain ⟨r', t'⟩ := p
        cases i with
        | zero =>
          simp only [List.getElem?_cons_zero, Option.some.injEq, Prod.mk.injEq] at hget
          simp [enrich_loop, hget.1, hget.2]
        | succ n =>
          simp only [List.getElem?_cons_succ] at hget
          simpa [enrich_loop] using ih (fun j => oc (j + 1)) n hget
    · intro hfail
      refine ⟨?_, ?_⟩
      · cases hoc : oc i with
        | exn => rfl
        | status code =>
          rw [hoc] at hfail
          simp only [isFailure, bne_iff_ne, ne_eq] at hfail
          simp [enrich_resource, hfail]
      · cases t <;> rfl

/-- Witness for C1: a five-resource batch whose third call raises; the
loop still yields five records and the third is the heuristic record
with confidence 0.70. -/
theorem c1_enrich_never_fails_batch_witness :
    (enrich_loop "Semaphores and Monitors"
        [(⟨"u1", "r1"⟩, RType.textbook), (⟨"u2", "r2"⟩, RType.slides),
         (⟨"u3", "r3"⟩, RType.homework), (⟨"u4", "r4"⟩, RType.textbook),
         (⟨"u5", "r5"⟩, RType.slides)]
        (fun i => if i = 2 then CallResult.exn else CallResult.status 200)).length = 5 ∧
      (enrich_loop "Semaphores and Monitors"
        [(⟨"u1", "r1"⟩, RType.textbook), (⟨"u2", "r2"⟩, RType.slides),
         (⟨"u3", "r3"⟩, RType.homework), (⟨"u4", "r4"⟩, RType.textbook),
         (⟨"u5", "r5"⟩, RType.slides)]
        (fun i => if i = 2 then CallResult.exn else CallResult.status 200))[2]? =
        some (basic_structure ⟨"u3", "r3"⟩ RType.homework) ∧
      confidenceOf (basic_structure ⟨"u3", "r3"⟩ RType.homework) = (0.70 : ℚ) := by
  have h := c1_enrich_never_fails_batch "Semaphores and Monitors"
    [(⟨"u1", "r1"⟩, RType.textbook), (⟨"u2", "r2"⟩, RType.slides),
     (⟨"u3", "r3"⟩, RType.homework), (⟨"u4", "r4"⟩, RType.textbook),
     (⟨"u5", "r5"⟩, RType.slides)]
    (fun i => if i = 2 then CallResult.exn else CallResult.status 200)
  have h2 := h.2 2 ⟨"u3", "r3"⟩ RType.homework (by rfl)
  have h3 := h2.2 (by decide)
  exact ⟨h.1, by rw [h2.1, h3.1], h3.2⟩

/-- Claim C10: the topic-row loop skips every row with fewer than two
cells before pattern matching (so a matching single-cell row is never
selected), and for every selected row the lecture cell is the second
cell — the single-cell fallback branch is never the one taken. -/
theorem c10_two_cell_guard (rows : List Row) (r : Row)
    (h : topic_row rows = some r) :
    (2 ≤ r.cells.length ∧ lecture_cell r.cells = r.cells.getD 1 cellDefault) ∧
      ∀ r' : Row, r'.cells.length < 2 → row_qualifies r' = false := by
  constructor
  · have hq : row_qualifies r = true := List.find?_some h
    have hlen : 2 ≤ r.cells.length := by
      have hand := (Bool.and_eq_true _ _).mp hq
      exact of_decide_eq_true hand.1
    exact ⟨hlen, by unfold lecture_cell; rw [if_pos (by omega)]⟩
  · intro r' hlt
    unfold row_qualifies
    have hd : decide (2 ≤ r'.cells.length) = false := by
      rw [decide_eq_false_iff_not]
      omega
    rw [hd]
    rfl

/-- Witness for C10: on a two-cell topic row the selected lecture cell
is the second cell, while the same topic text in a single-cell row
never qualifies. -/
theorem c10_two_cell_guard_witness :
    lecture_cell [⟨Tag.td, "10/14"⟩, ⟨Tag.td, "Semaphores and Monitors"⟩] =
        ⟨Tag.td, "Semaphores and Monitors"⟩ ∧
      row_qualifies ⟨[⟨Tag.td, "Semaphores and Monitors"⟩], []⟩ = false := by
  have h := c10_two_cell_guard
    [⟨[⟨Tag.td, "10/14"⟩, ⟨Tag.td, "Semaphores and Monitors"⟩], []⟩]
    ⟨[⟨Tag.td, "10/14"⟩, ⟨Tag.td, "Semaphores and Monitors"⟩], []⟩
    (by decide)
  exact ⟨h.1.2, h.2 ⟨[⟨Tag.td, "Semaphores and Monitors"⟩], []⟩ (by decide)⟩

/-- Claim C5, counterexample: a qualifying topic row whose second cell
is blank is selected, and the extracted topic string is empty — the
extractor does not always return a non-empty topic. -/
theorem c5_topic_row_counterexample :
    topic_row [⟨[⟨Tag.td, "Semaphores and Monitors"⟩, ⟨Tag.td, "  "⟩], []⟩] =
        some ⟨[⟨Tag.td, "Semaphores and Monitors"⟩, ⟨Tag.td, "  "⟩], []⟩ ∧
      strip (lecture_cell [⟨Tag.td, "Semaphores and Monitors"⟩, ⟨Tag.td, "  "⟩]).text = "" := by
  decide

/-- Claim C5, amended: for the row the extractor selects (the first row
with at least two cells whose joined cell text matches the topic
pattern), the topic is the stripped text of the second cell (possibly
empty), and the extractor returns the complete sequence of the row's
anchors in document order, each as a `(url, text)` pair with the url
passed through the resolver exactly when it does not start with
"http". -/
theorem c5_topic_row_amended (rows : List Row) (r : Row)
    (join : String → String → String) (h : topic_row rows = some r) :
    2 ≤ r.cells.length ∧
      strip (lecture_cell r.cells).text = strip (r.cells.getD 1 cellDefault).text ∧
      (extract_links join course_url r).length = r.anchors.length ∧
      ∀ (i : Nat) (a : Anchor), r.anchors[i]? = some a →
        (extract_links join course_url r)[i]? =
          some (if startsWithL "http".toList a.href.toList then a.href
            else join course_url a.href, strip a.text) := by
  have hq : row_qualifies r = true := List.find?_some h
  have hlen : 2 ≤ r.cells.length :=
    of_decide_eq_true ((Bool.and_eq_true _ _).mp hq).1
  refine ⟨hlen, ?_, ?_, ?_⟩
  · unfold lecture_cell
    rw [if_pos (by omega)]
  · simp [extract_links]
  · intro i a hget
    simp [extract_links, hget, resolveUrl]

/-- Witness for C5 (amended): a concrete selected row with one relative
link; the extractor returns that one link resolved against the course
base URL by the supplied resolver. -/
theorem c5_topic_row_amended_witness :
    (extract_links (fun b u => b ++ u) course_url
        ⟨[⟨Tag.td, "10/14"⟩, ⟨Tag.td, "Semaphores and Monitors"⟩],
         [⟨"lectures/sema.pdf", " Sema Slides "⟩]⟩).length = 1 ∧
      (extract_links (fun b u => b ++ u) course_url
        ⟨[⟨Tag.td, "10/14"⟩, ⟨Tag.td, "Semaphores and Monitors"⟩],
         [⟨"lectures/sema.pdf", " Sema Slides "⟩]⟩)[0]? =
        some ("https://cseweb.ucsd.edu/classes/fa25/cse120-a/lectures/sema.pdf",
          "Sema Slides") := by
  have h := c5_topic_row_amended
    [⟨[⟨Tag.td, "10/14"⟩, ⟨Tag.td, "Semaphores and Monitors"⟩],
      [⟨"lectures/sema.pdf", " Sema Slides "⟩]⟩]
    ⟨[⟨Tag.td, "10/14"⟩, ⟨Tag.td, "Semaphores and Monitors"⟩],
     [⟨"lectures/sema.pdf", " Sema Slides "⟩]⟩
    (fun b u => b ++ u) (by decide)
  refine ⟨h.2.2.1, ?_⟩
  have h0 := h.2.2.2 0 ⟨"lectures/sema.pdf", " Sema Slides "⟩ (by rfl)
  rw [h0]
  decide

/-- Claim C4, counterexample: a document whose first table has a
first-cell date token and whose second table carries a "Date" header —
the locator takes the first table, not the "Date"-header one, because
both rules are tried on each table in document order. -/
theorem c4_date_header_counterexample :
    schedule_table
        [⟨[⟨[⟨Tag.td, "9/25"⟩], []⟩]⟩, ⟨[⟨[⟨Tag.th, "Date"⟩], []⟩]⟩] =
      some ⟨[⟨[⟨Tag.td, "9/25"⟩], []⟩]⟩ ∧
      containsStr "Date" (headerText ⟨[⟨[⟨Tag.th, "Date"⟩], []⟩]⟩) = true ∧
      (⟨[⟨[⟨Tag.td, "9/25"⟩], []⟩]⟩ : Table) ≠ ⟨[⟨[⟨Tag.th, "Date"⟩], []⟩]⟩ := by
  decide

/-- Claim C4, amended: the locator selects a table whose header text
contains "Date" whenever no earlier table satisfies either selection
rule (the header rule or the first-cell date-pattern rule); an earlier
table matching either rule is selected instead, whatever its kind. -/
theorem c4_date_header_amended (pre post : List Table) (t : Table)
    (hpre : ∀ t' ∈ pre, (headerRule t' || dateRule t') = false)
    (hdate : containsStr "Date" (headerText t) = true) :
    schedule_table (pre ++ t :: post) = some t := by
  have ht : (headerRule t || dateRule t) = true := by
    unfold headerRule
    rw [hdate]
    simp
  induction pre with
  | nil =>
    simp only [List.nil_append, schedule_table]
    exact List.find?_cons_of_pos _ ht
  | cons a pre ih =>
    have ha := hpre a (by simp)
    have ihp := ih (fun t' ht' => hpre t' (by simp [ht']))
    simp only [List.cons_append, schedule_table] at ihp ⊢
    rw [List.find?_cons_of_neg _ (by simp [ha]), ihp]

/-- Witness for C4 (amended): a plain table that fails both rules
followed by a "Date"-header table; the locator selects the latter. -/
theorem c4_date_header_amended_witness :
    schedule_table
        [⟨[⟨[⟨Tag.td, "hello"⟩], []⟩]⟩, ⟨[⟨[⟨Tag.th, "Date"⟩], []⟩]⟩] =
      some ⟨[⟨[⟨Tag.th, "Date"⟩], []⟩]⟩ := by
  have h := c4_date_header_amended [⟨[⟨[⟨Tag.td, "hello"⟩], []⟩]⟩] []
    ⟨[⟨[⟨Tag.th, "Date"⟩], []⟩]⟩
    (by intro t' ht'; simp at ht'; rw [ht']; decide)
    (by decide)
  exact h

/-- Claim C6: with no API key and enrichment not disabled, the produced
document's papers are exactly the static three-paper fallback list
(Linux CFS, Lottery Scheduling, BFS vs CFS), in particular non-empty. -/
theorem c6_no_key_fallback_papers (week : Nat)
    (join : String → String → String) (fetch : Option (List Table))
    (oc : Nat → CallResult) (paperOc : CallResult) (paperBody : String)
    (now : Nat) (nowStr : String) :
    (program_run week join fetch none false oc paperOc paperBody now
          nowStr).aggregatedContent.papers = get_fallback_papers ∧
      get_fallback_papers.length = 3 ∧
      get_fallback_papers.map Paper.title =
        ["The Linux Completely Fair Scheduler",
         "Lottery Scheduling: Flexible Proportional-Share Resource Management",
         "BFS vs CFS - Scheduler Comparison"] ∧
      get_fallback_papers ≠ [] := by
  exact ⟨rfl, rfl, rfl, by decide⟩

/-- Claim C7: on every execution path — fetch failure, discovery
failure, enrichment on or off, key present or absent — the program
produces a document with course code "CSE 120", institution "UCSD", the
requested week number, and an aggregated-content object carrying its six
fields; no path aborts. -/
theorem c7_always_complete_bundle (week : Nat)
    (join : String → String → String) (fetch : Option (List Table))
    (key : Option String) (noEnrich : Bool) (oc : Nat → CallResult)
    (paperOc : CallResult) (paperBody : String) (now : Nat) (nowStr : String) :
    (program_run week join fetch key noEnrich oc paperOc paperBody now
          nowStr).courseCode = "CSE 120" ∧
      (program_run week join fetch key noEnrich oc paperOc paperBody now
          nowStr).institution = "UCSD" ∧
      (program_run week join fetch key noEnrich oc paperOc paperBody now
          nowStr).weekNumber = week ∧
      ∃ tbs sls hws pps rid ts,
        (program_run week join fetch key noEnrich oc paperOc paperBody now
            nowStr).aggregatedContent = ⟨tbs, sls, hws, pps, rid, ts⟩ := by
  have hw : (scrape_week week join fetch).week = week := by
    unfold scrape_week
    cases fetch with
    | none => rfl
    | some tables =>
      cases hs : schedule_table tables with
      | none => simp only [hs]; rfl
      | some table =>
        cases hr : topic_row table.rows with
        | none => simp only [hs, hr]; rfl
        | some row => simp only [hs, hr]
  refine ⟨?_, ?_, ?_, ⟨_, _, _, _, _, _, rfl⟩⟩ <;>
    (unfold program_run; cases noEnrich <;> cases key <;>
      simp [enrich_with_parallel, structure_for_output, hw])

/-- Claim C9: on every execution path the document's papers equal the
static fallback list — the non-enriched path substitutes it outright and
the enriched path's parser returns it unconditionally — so resources the
categorizer placed in the papers bucket never reach the output. -/
theorem c9_papers_always_fallback (week : Nat)
    (join : String → String → String) (fetch : Option (List Table))
    (key : Option String) (noEnrich : Bool) (oc : Nat → CallResult)
    (paperOc : CallResult) (paperBody : String) (now : Nat) (nowStr : String) :
    (program_run week join fetch key noEnrich oc paperOc paperBody now
          nowStr).aggregatedContent.papers = get_fallback_papers ∧
      ∀ body : String, parse_parallel_papers body = get_fallback_papers := by
  refine ⟨?_, fun _ => rfl⟩
  unfold program_run
  cases noEnrich with
  | true => rfl
  | false =>
    cases key with
    | none => rfl
    | some k =>
      show (find_research_papers (some k) paperOc paperBody) = get_fallback_papers
      unfold find_research_papers
      cases paperOc with
      | exn => rfl
      | status code =>
        by_cases hc : code = 200 <;> simp [hc, parse_parallel_papers, get_fallback_papers]

end Scrape
